import Mathlib

/-!
Shallow embedding of the `musicnn`/`musicod` pipeline.

Sources embedded here:
* `src/musicnn/extractor.py` — `batch_data` (spectrogram batching loop).
* `src/musicod.py` — `init_data`, `index_dir`, `dump_data`/`load_data`,
  `album_subdata` (the second, effective definition), `album_pickdata`,
  and the scoring/report section of `album_od`.

Numeric values (tag probabilities, scores, medians) are modelled as
rationals `ℚ`; the external collaborators (librosa spectrogram, the
tagging model, the COPOD fit of `pyod`, `os.walk`, `os.path.relpath`) are
parameters of the embedded functions, exactly at the call boundary the
Python code uses them.
-/

namespace Musicod

/-! ## Spectrogram batching (`batch_data`, src/musicnn/extractor.py) -/

/-- Python `range(0, stop, step)` for a (possibly non-positive) `stop`
and positive `step`: the multiples of `step` strictly below `stop`.
CPython computes the length as `ceil(stop / step)` when `stop > 0`,
else `0`. -/
def pyRange0 (stop : ℤ) (step : ℕ) : List ℕ :=
  if 0 < stop then (List.range ((stop.toNat + step - 1) / step)).map (· * step) else []

/-- The batching loop of `batch_data`: given the 2-D spectrogram
`audio_rep` (a list of `T` rows), it slices patches of `n_frames` rows
starting at `0, overlap, 2·overlap, …` strictly below
`last_frame = T - n_frames + 1`.  When the loop body never runs the
Python function crashes on the unbound local `batch` at `return`;
this is the `none` case. -/
def batch_data (audio_rep : List (List ℚ)) (n_frames overlap : ℕ) :
    Option (List (List (List ℚ))) :=
  let last_frame : ℤ := (audio_rep.length : ℤ) - n_frames + 1
  let patches := (pyRange0 last_frame overlap).map
    (fun time_stamp => (audio_rep.drop time_stamp).take n_frames)
  if patches.isEmpty then none else some patches

theorem pyRange0_length (stop : ℤ) (step : ℕ) (h : 0 < stop) :
    (pyRange0 stop step).length = (stop.toNat + step - 1) / step := by
  simp [pyRange0, h]

theorem pyRange0_get (stop : ℤ) (step : ℕ) (h : 0 < stop) (i : ℕ)
    (hi : i < (pyRange0 stop step).length) :
    (pyRange0 stop step).getD i 0 = i * step := by
  simp only [pyRange0, if_pos h] at hi ⊢
  rw [List.getD_eq_getElem?_getD, List.getElem?_map]
  simp only [List.length_map, List.length_range] at hi
  simp [List.getElem?_range hi]

/-- Patch-count arithmetic: for `0 < o`,
`ceil((T - n + 1) / o) = (T - n) / o + 1`. -/
theorem batch_count_arith (T n o : ℕ) (ho : 0 < o) :
    ((T - n + 1) + o - 1) / o = (T - n) / o + 1 := by
  have h1 : (T - n + 1) + o - 1 = (T - n) + o := by omega
  rw [h1, Nat.add_div_right _ ho]

/-- C1: the batching operation produces exactly `(T − n) / o + 1` patches,
patch `i` being the `n`-row slice starting at row `i·o`; trailing rows
beyond the last full patch never appear in any patch. -/
theorem batch_data_patches (audio_rep : List (List ℚ)) (n o : ℕ)
    (hn : 1 ≤ n) (hT : n ≤ audio_rep.length) (ho : 0 < o) (hon : o ≤ n) :
    ∃ ps, batch_data audio_rep n o = some ps ∧
      ps.length = (audio_rep.length - n) / o + 1 ∧
      ∀ i, i < ps.length →
        ps.getD i [] = (audio_rep.drop (i * o)).take n ∧
        (ps.getD i []).length = n := by
  set T := audio_rep.length with hTdef
  have hstop : (0 : ℤ) < (T : ℤ) - n + 1 := by omega
  have htoNat : ((T : ℤ) - n + 1).toNat = T - n + 1 := by omega
  have hlen : (pyRange0 ((T : ℤ) - n + 1) o).length = (T - n) / o + 1 := by
    rw [pyRange0_length _ _ hstop, htoNat, batch_count_arith T n o ho]
  refine ⟨(pyRange0 ((T : ℤ) - n + 1) o).map
      (fun t => (audio_rep.drop t).take n), ?_, ?_, ?_⟩
  · have hne : ((pyRange0 ((T : ℤ) - n + 1) o).map
        (fun t => (audio_rep.drop t).take n)).isEmpty = false := by
      rw [List.isEmpty_eq_false_iff_exists_mem]
      have : 0 < (pyRange0 ((T : ℤ) - n + 1) o).length := by
        rw [hlen]; exact Nat.succ_pos _
      obtain ⟨x, hx⟩ := List.exists_mem_of_length_pos this
      exact ⟨_, List.mem_map_of_mem _ hx⟩
    simp only [batch_data, hTdef]
    rw [if_neg]
    simp [hne]
  · simpa using hlen
  · intro i hi
    simp only [List.length_map, hlen] at hi
    have hi' : i < (pyRange0 ((T : ℤ) - n + 1) o).length := by rw [hlen]; exact hi
    have hget : ((pyRange0 ((T : ℤ) - n + 1) o).map
        (fun t => (audio_rep.drop t).take n)).getD i []
        = (audio_rep.drop ((pyRange0 ((T : ℤ) - n + 1) o).getD i 0)).take n := by
      rw [List.getD_eq_getElem?_getD, List.getElem?_map]
      rw [List.getD_eq_getElem?_getD]
      rcases List.getElem?_eq_some_iff.mpr ⟨hi', rfl⟩ with h
      rw [h]
      simp
    rw [hget, pyRange0_get _ _ hstop i hi']
    refine ⟨rfl, ?_⟩
    have hio : i * o ≤ T - n := by
      have h1 : i ≤ (T - n) / o := by omega
      calc i * o ≤ ((T - n) / o) * o := Nat.mul_le_mul_right o h1
        _ ≤ T - n := Nat.div_mul_le_self _ _
    simp only [List.length_take, List.length_drop]
    omega

/-! ## Library index data model (src/musicod.py) -/

/-- The dictionary built by `init_data` / `index_dir`:
a dictionary with keys `tags`, `path` and `vecs`. -/
structure MusicData where
  tags : Option (List String)
  path : List String
  vecs : List (List ℚ)
deriving DecidableEq, Repr

/-- The `music_extensions` list: `mp3`, `wav`, `flac`, `m4a`. -/
def music_extensions : List String := ["mp3", "wav", "flac", "m4a"]

/-- Case-insensitive suffix test on the character lists of two
strings. -/
def endsWithCI (s suffix : String) : Bool :=
  (s.data.map Char.toLower).reverse.take suffix.data.length == suffix.data.reverse

/-- Model of `re.match(music_ext_pattern, filename)`: the generated
pattern accepts exactly the filenames ending in `"." ++ ext` with the
extension letters in either case. -/
def is_music_file (filename : String) : Bool :=
  music_extensions.any (fun e => endsWithCI filename ("." ++ e))

/-- Model of `os.path.join(root, filename)` for a root with no trailing
separator and a relative filename. -/
def pathJoin (root filename : String) : String := root ++ "/" ++ filename

/-- `init_data(tags)`: note `tags.copy() if tags else None` maps an
*empty* tag list to `None` (Python falsiness), unlike the `is None`
check inside `index_dir`. -/
def init_data (tags : Option (List String)) : MusicData :=
  { tags := match tags with
      | some t => if t.isEmpty then none else some t
      | none => none,
    path := [], vecs := [] }

/-- Inner file loop of `index_dir`.  `tags_vec` (the extractor call) is
an external collaborator that may raise; `index_dir` wraps no
`try`/`except` around it, so a failure propagates out of the whole
scan — modelled by the `Except` short-circuit. -/
def index_files (tags_vec : String → Except Unit (List String × List ℚ))
    (root : String) (data : MusicData) : List String → Except Unit MusicData
  | [] => .ok data
  | filename :: rest =>
    if is_music_file filename then
      match tags_vec (pathJoin root filename) with
      | .error e => .error e
      | .ok (tags, vec) =>
        index_files tags_vec root
          { tags := match data.tags with
              | none => some tags
              | some t => some t,
            path := data.path ++ [pathJoin root filename],
            vecs := data.vecs ++ [vec] } rest
    else index_files tags_vec root data rest

/-- Directory loop of `index_dir` over the `os.walk` result, modelled
as the list of `(root, files)` pairs the walk yields. -/
def index_walk (tags_vec : String → Except Unit (List String × List ℚ))
    (data : MusicData) : List (String × List String) → Except Unit MusicData
  | [] => .ok data
  | (root, files) :: rest =>
    match index_files tags_vec root data files with
    | .error e => .error e
    | .ok d => index_walk tags_vec d rest

/-- `index_dir`: full scan starting from `init_data()`. -/
def index_dir (tags_vec : String → Except Unit (List String × List ℚ))
    (walk : List (String × List String)) : Except Unit MusicData :=
  index_walk tags_vec (init_data none) walk

/-- An extractor model whose only failure is the batching failure on a
track shorter than one frame window (`T = 1 < n_frames = 10`). -/
def tags_vec_short (file_path : String) : Except Unit (List String × List ℚ) :=
  if file_path = "lib/short.mp3" then
    match batch_data [[0]] 10 5 with
    | none => .error ()
    | some _ => .ok (["rock"], [1])
  else .ok (["rock"], [1])

/-- An extractor model returning a 2-tag vector for the first file and
a 3-tag vector for the second. -/
def tags_vec_mismatch (file_path : String) :
    Except Unit (List String × List ℚ) :=
  if file_path = "lib/a.mp3" then .ok (["t1", "t2"], [1, 2])
  else .ok (["t1", "t2", "t3"], [1, 2, 3])

/-- C4: on a track shorter than one frame window the batching loop
produces no patch (`batch` stays unbound: the `none` case, not a named
`InsufficientAudioLength`), and `index_dir` has no handler: the failure
propagates and the whole scan aborts instead of skipping the file. -/
theorem index_dir_aborts_on_short_track :
    batch_data [[0]] 10 5 = none ∧
    index_dir tags_vec_short [("lib", ["short.mp3", "long.mp3"])] = .error () := by
  exact ⟨rfl, rfl⟩

/-- C5: `index_dir` performs no vocabulary-length check: after the
first file establishes a 2-tag vocabulary, a second file whose vector
has length 3 is appended and the build completes normally — no
`VocabularyMismatch` is raised and the entry is not rejected. -/
theorem index_dir_accepts_mismatched_vector :
    ∃ d, index_dir tags_vec_mismatch [("lib", ["a.mp3", "b.mp3"])] = .ok d ∧
      d.tags = some ["t1", "t2"] ∧
      d.vecs.map List.length = [2, 3] := by
  exact ⟨_, rfl, rfl, rfl⟩

/-! ## Persistence (`dump_data` / `load_data`)

`dump_data` writes `json.dumps(data)`, `load_data` returns
`json.load(file)`.  The snapshot is modelled at the JSON-tree level: a
`JVal` is the parse tree of the textual snapshot, `dumps` is the tree
`json.dumps` serialises, and `loads` reads the three dictionary keys
back the way every consumer of the `load_data` result does. -/

/-- JSON values (numbers as exact rationals, matching the model of all
numeric data in this embedding). -/
inductive JVal where
  | null
  | str (s : String)
  | num (q : ℚ)
  | arr (l : List JVal)
  | obj (fields : List (String × JVal))

/-- The JSON tree `json.dumps` produces for an index dictionary. -/
def dumps (d : MusicData) : JVal :=
  .obj [("tags", match d.tags with
          | none => .null
          | some t => .arr (t.map .str)),
        ("path", .arr (d.path.map .str)),
        ("vecs", .arr (d.vecs.map (fun v => .arr (v.map .num))))]

def decodeStr : JVal → Option String
  | .str s => some s
  | _ => none

def decodeNum : JVal → Option ℚ
  | .num q => some q
  | _ => none

def decodeStrs : List JVal → Option (List String)
  | [] => some []
  | v :: rest =>
    match decodeStr v, decodeStrs rest with
    | some s, some l => some (s :: l)
    | _, _ => none

def decodeStrList : JVal → Option (List String)
  | .arr l => decodeStrs l
  | _ => none

def decodeNums : List JVal → Option (List ℚ)
  | [] => some []
  | v :: rest =>
    match decodeNum v, decodeNums rest with
    | some q, some l => some (q :: l)
    | _, _ => none

def decodeVec : JVal → Option (List ℚ)
  | .arr l => decodeNums l
  | _ => none

def decodeVecList : List JVal → Option (List (List ℚ))
  | [] => some []
  | v :: rest =>
    match decodeVec v, decodeVecList rest with
    | some q, some l => some (q :: l)
    | _, _ => none

def decodeVecs : JVal → Option (List (List ℚ))
  | .arr l => decodeVecList l
  | _ => none

def decodeTags : JVal → Option (Option (List String))
  | .null => some none
  | v => (decodeStrList v).map some

/-- Dictionary key access on a parsed JSON object. -/
def jlookup (fields : List (String × JVal)) (k : String) : Option JVal :=
  (fields.find? (fun p => p.1 == k)).map (fun p => p.2)

/-- The value `load_data` hands back, read as an index dictionary. -/
def loads : JVal → Option MusicData
  | .obj fields => do
      let tags ← jlookup fields "tags" >>= decodeTags
      let path ← jlookup fields "path" >>= decodeStrList
      let vecs ← jlookup fields "vecs" >>= decodeVecs
      some { tags := tags, path := path, vecs := vecs }
  | _ => none

theorem decodeStrs_map (l : List String) :
    decodeStrs (l.map JVal.str) = some l := by
  induction l with
  | nil => rfl
  | cons a t ih => simp [decodeStrs, decodeStr, ih]

theorem decodeNums_map (l : List ℚ) :
    decodeNums (l.map JVal.num) = some l := by
  induction l with
  | nil => rfl
  | cons a t ih => simp [decodeNums, decodeNum, ih]

theorem decodeVecList_map (l : List (List ℚ)) :
    decodeVecList (l.map (fun v => JVal.arr (v.map JVal.num))) = some l := by
  induction l with
  | nil => rfl
  | cons a t ih => simp [decodeVecList, decodeVec, decodeNums_map, ih]

/-- C7: persisting an index and reloading it is the identity on the
whole `{tags, path, vecs}` value — identical vocabulary, entry order,
paths and vector values. -/
theorem loads_dumps (d : MusicData) : loads (dumps d) = some d := by
  obtain ⟨tags, path, vecs⟩ := d
  cases tags with
  | none =>
      simp [dumps, loads, jlookup, decodeTags, decodeStrList, decodeVecs,
        decodeStrs_map, decodeVecList_map]
  | some t =>
      cases t with
      | nil =>
          simp [dumps, loads, jlookup, decodeTags, decodeStrList, decodeVecs,
            decodeStrs, decodeStrs_map, decodeVecList_map]
      | cons a l =>
          simp [dumps, loads, jlookup, decodeTags, decodeStrList, decodeVecs,
            decodeStrs, decodeStr, decodeStrs_map, decodeVecList_map]

/-! ## Subset selection (`album_subdata`, `album_pickdata`)

Both walk the album directories; the walk result is modelled as the
list of `(subpath, files)` pairs `os.walk` yields across all requested
album names (concatenated in order).  The lookup `index(file_path)` into
wrapped in `try`/`except` is modelled by `List.indexOf?`. -/

/-- One vector appended per lookup hit:
the copy of the library vector at `file_index`. -/
def libVecAt (lib : MusicData) (i : ℕ) : List ℚ := lib.vecs.getD i []

/-- Inner file loop of (the second, effective) `album_subdata`: every
matching file found in the library is appended; no early exit. -/
def subFiles (lib : MusicData) (subpath : String) (data : MusicData) :
    List String → MusicData
  | [] => data
  | filename :: rest =>
    if is_music_file filename then
      match lib.path.indexOf? (pathJoin subpath filename) with
      | none => subFiles lib subpath data rest
      | some i =>
        subFiles lib subpath
          { data with
            path := data.path ++ [pathJoin subpath filename],
            vecs := data.vecs ++ [libVecAt lib i] } rest
    else subFiles lib subpath data rest

/-- Directory loop of `album_subdata`. -/
def subWalk (lib : MusicData) (data : MusicData) :
    List (String × List String) → MusicData
  | [] => data
  | (subpath, files) :: rest => subWalk lib (subFiles lib subpath data files) rest

/-- `album_subdata`: fresh accumulator seeded with the library tags. -/
def album_subdata (lib : MusicData) (dirs : List (String × List String)) :
    MusicData :=
  subWalk lib (init_data lib.tags) dirs

/-- Inner file loop of `album_pickdata`: identical lookup, but the
`break` after a hit ends the loop over the files of this directory. -/
def pickFiles (lib : MusicData) (subpath : String) (pick_to : MusicData) :
    List String → MusicData
  | [] => pick_to
  | filename :: rest =>
    if is_music_file filename then
      match lib.path.indexOf? (pathJoin subpath filename) with
      | none => pickFiles lib subpath pick_to rest
      | some i =>
        { pick_to with
          path := pick_to.path ++ [pathJoin subpath filename],
          vecs := pick_to.vecs ++ [libVecAt lib i] }
    else pickFiles lib subpath pick_to rest

/-- Directory loop of `album_pickdata`: after a hit in one directory,
iteration resumes with the next directory of the walk. -/
def pickWalk (lib : MusicData) (pick_to : MusicData) :
    List (String × List String) → MusicData
  | [] => pick_to
  | (subpath, files) :: rest => pickWalk lib (pickFiles lib subpath pick_to files) rest

/-- `album_pickdata`: appends into the given accumulator. -/
def album_pickdata (pick_to : MusicData) (lib : MusicData)
    (dirs : List (String × List String)) : MusicData :=
  pickWalk lib pick_to dirs

/-- The first file of `files` that passes the extension filter and is
found in the library, with its index. -/
def firstHit (lib : MusicData) (subpath : String) :
    List String → Option (String × ℕ)
  | [] => none
  | filename :: rest =>
    if is_music_file filename then
      match lib.path.indexOf? (pathJoin subpath filename) with
      | none => firstHit lib subpath rest
      | some i => some (pathJoin subpath filename, i)
    else firstHit lib subpath rest

theorem pickFiles_eq_firstHit (lib : MusicData) (subpath : String)
    (pick_to : MusicData) (files : List String) :
    pickFiles lib subpath pick_to files =
      match firstHit lib subpath files with
      | none => pick_to
      | some (fp, i) =>
        { pick_to with
          path := pick_to.path ++ [fp],
          vecs := pick_to.vecs ++ [libVecAt lib i] } := by
  induction files with
  | nil => rfl
  | cons f rest ih =>
    by_cases hm : is_music_file f
    · cases hidx : lib.path.indexOf? (pathJoin subpath f) with
      | none => simpa [pickFiles, firstHit, hm, hidx] using ih
      | some i => simp [pickFiles, firstHit, hm, hidx]
    · simpa [pickFiles, firstHit, hm] using ih

/-- The per-directory hits of the pick loop. -/
def dirHits (lib : MusicData) (dirs : List (String × List String)) :
    List (String × ℕ) :=
  dirs.filterMap (fun d => firstHit lib d.1 d.2)

theorem pickWalk_eq (lib : MusicData) (dirs : List (String × List String))
    (pick_to : MusicData) :
    pickWalk lib pick_to dirs =
      { pick_to with
        path := pick_to.path ++ (dirHits lib dirs).map Prod.fst,
        vecs := pick_to.vecs ++ (dirHits lib dirs).map
          (fun h => libVecAt lib h.2) } := by
  induction dirs generalizing pick_to with
  | nil => simp [pickWalk, dirHits]
  | cons d rest ih =>
    obtain ⟨subpath, files⟩ := d
    show pickWalk lib (pickFiles lib subpath pick_to files) rest = _
    rw [pickFiles_eq_firstHit, ih]
    cases h : firstHit lib subpath files with
    | none => simp [dirHits, List.filterMap_cons, h]
    | some hit => simp [dirHits, List.filterMap_cons, h]

/-- C6: `album_pickdata` contributes, from each directory of the walk,
exactly the first file that passes the extension filter and is found in
the library (if any) — at most one entry per directory, and after a hit
the loop moves on to the next directory. -/
theorem album_pickdata_one_per_dir (pick_to lib : MusicData)
    (dirs : List (String × List String)) :
    album_pickdata pick_to lib dirs =
      { pick_to with
        path := pick_to.path ++ (dirHits lib dirs).map Prod.fst,
        vecs := pick_to.vecs ++ (dirHits lib dirs).map
          (fun h => libVecAt lib h.2) } ∧
    (album_pickdata pick_to lib dirs).path.length ≤
      pick_to.path.length + dirs.length := by
  refine ⟨pickWalk_eq lib dirs pick_to, ?_⟩
  rw [album_pickdata, pickWalk_eq]
  simp only [List.length_append, List.length_map]
  have := List.length_filterMap_le (fun d : String × List String =>
    firstHit lib d.1 d.2) dirs
  simpa [dirHits] using this

theorem replicate_append_getD (k m i : ℕ) (hi : i < k + m) :
    (List.replicate k (0 : ℚ) ++ List.replicate m (1 : ℚ)).getD i 0 =
      if i < k then 0 else 1 := by
  by_cases hik : i < k
  · rw [if_pos hik, List.getD_eq_getElem?_getD, List.getElem?_append]
    simp [hik, List.getElem?_replicate]
  · rw [if_neg hik, List.getD_eq_getElem?_getD, List.getElem?_append]
    simp only [List.length_replicate]
    rw [if_neg hik, List.getElem?_replicate]
    have h2 : i - k < m := by omega
    simp [h2]

/-- C10: in the assembly phase of `album_od`, the inlier rows gathered by
`album_subdata` form a prefix of the final matrix (the picked outlier
rows are appended after them), and the ground-truth vector is exactly
`inlier_count` zeros followed by `outlier_count` ones, so the
truth label of each record agrees with its row position. -/
theorem album_od_assembly (lib : MusicData)
    (inDirs outDirs : List (String × List String)) :
    (album_subdata lib inDirs).vecs <+:
      (album_pickdata (album_subdata lib inDirs) lib outDirs).vecs ∧
    (album_subdata lib inDirs).path <+:
      (album_pickdata (album_subdata lib inDirs) lib outDirs).path ∧
    (List.replicate (album_subdata lib inDirs).vecs.length (0 : ℚ) ++
      List.replicate
        ((album_pickdata (album_subdata lib inDirs) lib outDirs).vecs.length -
          (album_subdata lib inDirs).vecs.length) (1 : ℚ)).length =
      (album_pickdata (album_subdata lib inDirs) lib outDirs).vecs.length ∧
    ∀ i, i < (album_pickdata (album_subdata lib inDirs) lib outDirs).vecs.length →
      (List.replicate (album_subdata lib inDirs).vecs.length (0 : ℚ) ++
        List.replicate
          ((album_pickdata (album_subdata lib inDirs) lib outDirs).vecs.length -
            (album_subdata lib inDirs).vecs.length) (1 : ℚ)).getD i 0 =
        if i < (album_subdata lib inDirs).vecs.length then 0 else 1 := by
  set d1 := album_subdata lib inDirs with hd1
  set hits := (dirHits lib outDirs).map (fun h => libVecAt lib h.2) with hh
  have e2 : (album_pickdata d1 lib outDirs).vecs = d1.vecs ++ hits := by
    rw [album_pickdata, pickWalk_eq]
  have e2p : (album_pickdata d1 lib outDirs).path =
      d1.path ++ (dirHits lib outDirs).map Prod.fst := by
    rw [album_pickdata, pickWalk_eq]
  set k := d1.vecs.length with hk
  have e3 : (album_pickdata d1 lib outDirs).vecs.length = k + hits.length := by
    rw [e2]; simp
  have e4 : (album_pickdata d1 lib outDirs).vecs.length - k = hits.length := by
    omega
  refine ⟨⟨hits, e2.symm⟩, ⟨_, e2p.symm⟩, ?_, ?_⟩
  · rw [e4]; simp [e3]
  · intro i hi
    rw [e3] at hi
    rw [e4]
    exact replicate_append_getD k hits.length i hi

/-! ## Outlier scoring (`album_od`, scoring section)

The COPOD classifier is an external collaborator (`pyod`); `album_od`
uses exactly three of its outputs — `labels_`, `decision_scores_` and
the dimensional contribution matrix `O` — all fixed at `fit` time.  The
fit is therefore a parameter, invoked (as in the source) on the data
matrix and the contamination argument only. -/

/-- The three fit outputs `album_od` reads. -/
structure FitResult where
  labels : List ℕ
  decision_scores : List ℚ
  O : List (List ℚ)

/-- `np.median` of one column: sort, take the middle element, or the
mean of the two middle elements when the count is even. -/
def npMedian (l : List ℚ) : ℚ :=
  let s := l.insertionSort (· ≤ ·)
  if l.length % 2 = 1 then s.getD (l.length / 2) 0
  else (s.getD (l.length / 2 - 1) 0 + s.getD (l.length / 2) 0) / 2

/-- `np.median(data_mat, axis=0)`: per-column medians. -/
def colMedians (mat : List (List ℚ)) (d : ℕ) : List ℚ :=
  (List.range d).map (fun j => npMedian (mat.map (fun row => row.getD j 0)))

/-- What the scoring section publishes to the report section. -/
structure ODResult where
  labels : List ℕ
  od_scores : List ℚ
  od_mat : List (List ℚ)
  medians : List ℚ

/-- `COPOD(contamination=outlier_count/n) if outlier_count > 1 else
COPOD()`, fitted on the data matrix. -/
def clfOf (fit : List (List ℚ) → Option ℚ → FitResult)
    (data_mat : List (List ℚ)) (outlier_count : ℕ) : FitResult :=
  if 1 < outlier_count then
    fit data_mat (some ((outlier_count : ℚ) / data_mat.length))
  else fit data_mat none

/-- `od_mat = clf.O[-n:]`. -/
def baseOdMat (fit : List (List ℚ) → Option ℚ → FitResult)
    (data_mat : List (List ℚ)) (outlier_count : ℕ) : List (List ℚ) :=
  (clfOf fit data_mat outlier_count).O.drop
    ((clfOf fit data_mat outlier_count).O.length - data_mat.length)

/-- `weights = np.maximum(data_mat, median_likelihood.T)`: the
per-column medians broadcast across rows. -/
def weightsOf (data_mat : List (List ℚ)) (d : ℕ) : List (List ℚ) :=
  data_mat.map (fun row =>
    (List.range d).map (fun j =>
      max (row.getD j 0) ((colMedians data_mat d).getD j 0)))

/-- Lines 122–135 of `album_od`: choose the contamination, fit, read
the fit outputs, then (only if `weighted`) reweight the contribution
matrix by `max(V, median)` and replace the scores by the row sums. -/
def od_core (fit : List (List ℚ) → Option ℚ → FitResult)
    (data_mat : List (List ℚ)) (outlier_count : ℕ) (weighted : Bool) :
    ODResult :=
  let d := (data_mat.headD []).length
  if weighted then
    let od_mat2 := List.zipWith (fun orow wrow => List.zipWith (· * ·) orow wrow)
      (baseOdMat fit data_mat outlier_count) (weightsOf data_mat d)
    { labels := (clfOf fit data_mat outlier_count).labels,
      od_scores := od_mat2.map (fun r => r.sum),
      od_mat := od_mat2,
      medians := colMedians data_mat d }
  else
    { labels := (clfOf fit data_mat outlier_count).labels,
      od_scores := (clfOf fit data_mat outlier_count).decision_scores,
      od_mat := baseOdMat fit data_mat outlier_count,
      medians := colMedians data_mat d }

/-- C2: the predicted binary labels are read from the fit alone — the
fit sees only the matrix and the contamination, and the `weighted`
branch never touches `labels` — so the reported label of every record
is identical with `weighted` true or false. -/
theorem od_core_label_stability
    (fit : List (List ℚ) → Option ℚ → FitResult)
    (data_mat : List (List ℚ)) (outlier_count : ℕ) :
    (od_core fit data_mat outlier_count true).labels =
      (od_core fit data_mat outlier_count false).labels := by
  simp [od_core]

theorem range_map_getD {α : Type} (n : ℕ) (f : ℕ → α) (i : ℕ) (d : α)
    (hi : i < n) :
    (((List.range n).map f).getD i d) = f i := by
  rw [List.getD_eq_getElem?_getD, List.getElem?_map, List.getElem?_range hi]
  rfl

theorem getElem?_eq_some_getD {α : Type} (l : List α) (i : ℕ) (d : α)
    (h : i < l.length) : l[i]? = some (l.getD i d) := by
  rw [List.getD_eq_getElem?_getD]
  cases hh : l[i]? with
  | none => rw [List.getElem?_eq_none_iff] at hh; omega
  | some a => rfl

/-- C3: with `weighted` on, the scorer multiplies each contribution
entry `O[i,j]` by `max(V[i,j], median_j)` — `median_j` being the
per-column median over all rows — and reports as the score of each record
the row sum of the weighted contributions. -/
theorem od_core_reweighting
    (fit : List (List ℚ) → Option ℚ → FitResult)
    (data_mat : List (List ℚ)) (outlier_count : ℕ) (d i j : ℕ)
    (hd : (data_mat.headD []).length = d)
    (hi : i < data_mat.length)
    (hiO : i < (od_core fit data_mat outlier_count false).od_mat.length)
    (hj : j < d)
    (hjO : j < ((od_core fit data_mat outlier_count false).od_mat.getD i []).length) :
    (od_core fit data_mat outlier_count true).medians =
      (List.range d).map (fun c => npMedian (data_mat.map (fun row => row.getD c 0))) ∧
    ((od_core fit data_mat outlier_count true).od_mat.getD i []).getD j 0 =
      ((od_core fit data_mat outlier_count false).od_mat.getD i []).getD j 0 *
        max ((data_mat.getD i []).getD j 0)
          (npMedian (data_mat.map (fun row => row.getD j 0))) ∧
    (od_core fit data_mat outlier_count true).od_scores =
      (od_core fit data_mat outlier_count true).od_mat.map (fun r => r.sum) := by
  have e_false : (od_core fit data_mat outlier_count false).od_mat =
      baseOdMat fit data_mat outlier_count := rfl
  have e_true : (od_core fit data_mat outlier_count true).od_mat =
      List.zipWith (fun orow wrow => List.zipWith (· * ·) orow wrow)
        (baseOdMat fit data_mat outlier_count)
        (weightsOf data_mat ((data_mat.headD []).length)) := rfl
  have e_med : (od_core fit data_mat outlier_count true).medians =
      colMedians data_mat ((data_mat.headD []).length) := rfl
  rw [e_false] at hiO hjO
  set odm := baseOdMat fit data_mat outlier_count with hodm
  set med := colMedians data_mat d with hmed
  refine ⟨?_, ?_, rfl⟩
  · rw [e_med, hd]; rfl
  · rw [e_true, e_false, hd]
    have hrow : odm[i]? = some (odm.getD i []) := getElem?_eq_some_getD odm i [] hiO
    have hdrow : data_mat[i]? = some (data_mat.getD i []) :=
      getElem?_eq_some_getD data_mat i [] hi
    have hwrow : (weightsOf data_mat d)[i]? =
        some ((List.range d).map (fun c =>
          max ((data_mat.getD i []).getD c 0) (med.getD c 0))) := by
      rw [weightsOf, List.getElem?_map, hdrow, ← hmed]
      rfl
    have houter : (List.zipWith (fun orow wrow => List.zipWith (· * ·) orow wrow)
        odm (weightsOf data_mat d)).getD i [] =
        List.zipWith (· * ·) (odm.getD i [])
          ((List.range d).map (fun c =>
            max ((data_mat.getD i []).getD c 0) (med.getD c 0))) := by
      rw [List.getD_eq_getElem?_getD, List.getElem?_zipWith, hrow, hwrow]
      rfl
    rw [houter]
    have h1 : (odm.getD i [])[j]? = some ((odm.getD i []).getD j 0) :=
      getElem?_eq_some_getD _ j 0 hjO
    have h2 : ((List.range d).map (fun c =>
        max ((data_mat.getD i []).getD c 0) (med.getD c 0)))[j]? =
        some (max ((data_mat.getD i []).getD j 0) (med.getD j 0)) := by
      rw [List.getElem?_map, List.getElem?_range hj]
      rfl
    rw [List.getD_eq_getElem?_getD, List.getElem?_zipWith, h1, h2]
    have h3 : med.getD j 0 = npMedian (data_mat.map (fun row => row.getD j 0)) := by
      rw [hmed, colMedians, range_map_getD d _ j _ hj]
    rw [h3]
    rfl

/-- A concrete fit stub used to exercise the scorer on tiny inputs. -/
def fitStub : List (List ℚ) → Option ℚ → FitResult := fun m _ =>
  { labels := m.map (fun _ => 0),
    decision_scores := m.map (fun r => r.sum),
    O := m }

/-- Witness for `od_core_reweighting` at a concrete 2×2 input. -/
theorem od_core_reweighting_witness :
    (([[(1 : ℚ), 5], [3, 1]].headD []).length = 2 ∧
      0 < ([[(1 : ℚ), 5], [3, 1]] : List (List ℚ)).length ∧
      0 < (od_core fitStub [[(1 : ℚ), 5], [3, 1]] 0 false).od_mat.length ∧
      1 < 2 ∧
      1 < ((od_core fitStub [[(1 : ℚ), 5], [3, 1]] 0 false).od_mat.getD 0 []).length) ∧
    ((od_core fitStub [[(1 : ℚ), 5], [3, 1]] 0 true).medians =
      (List.range 2).map (fun c =>
        npMedian ([[(1 : ℚ), 5], [3, 1]].map (fun row => row.getD c 0))) ∧
    ((od_core fitStub [[(1 : ℚ), 5], [3, 1]] 0 true).od_mat.getD 0 []).getD 1 0 =
      ((od_core fitStub [[(1 : ℚ), 5], [3, 1]] 0 false).od_mat.getD 0 []).getD 1 0 *
        max (([[(1 : ℚ), 5], [3, 1]].getD 0 []).getD 1 0)
          (npMedian ([[(1 : ℚ), 5], [3, 1]].map (fun row => row.getD 1 0))) ∧
    (od_core fitStub [[(1 : ℚ), 5], [3, 1]] 0 true).od_scores =
      (od_core fitStub [[(1 : ℚ), 5], [3, 1]] 0 true).od_mat.map (fun r => r.sum)) :=
  ⟨⟨by decide, by decide, by decide, by decide, by decide⟩,
    od_core_reweighting fitStub [[(1 : ℚ), 5], [3, 1]] 0 2 0 1
      (by decide) (by decide) (by decide) (by decide) (by decide)⟩

/-- C9: no sample-count guard exists: on a single-record matrix the
scorer proceeds to the fit and publishes a label and a score instead of
failing fast. -/
theorem od_core_single_record :
    (od_core fitStub [[(1 : ℚ), 2]] 0 false).labels = [0] ∧
    (od_core fitStub [[(1 : ℚ), 2]] 0 false).od_scores = [3] ∧
    (od_core fitStub [[(1 : ℚ), 2]] 0 true).od_scores.length = 1 := by
  refine ⟨rfl, ?_, rfl⟩
  show ([[(1 : ℚ), 2]].map List.sum) = [3]
  norm_num

/-! ## Report writing (`album_od`, csv section)

`os.path.relpath` is an external collaborator and is a parameter.  The
`%d` formats are applied to the 0/1 labels, modelled as `ℕ`; `%.3lf`
is modelled by `fmt3` below (integer part, a dot, and the three
rounded decimal digits). -/

/-- `|q|` rounded to a whole number of thousandths. -/
def round3 (q : ℚ) : ℕ := (⌊|q| * 1000 + 1 / 2⌋).toNat

/-- The three decimal digits of a thousandths count `n < 1000`,
zero-padded. -/
def fracDigits3 (n : ℕ) : String :=
  ⟨[Nat.digitChar (n / 100 % 10), Nat.digitChar (n / 10 % 10),
    Nat.digitChar (n % 10)]⟩

/-- `"%.3lf" % q`: sign, integer part, dot, three decimal digits. -/
def fmt3 (q : ℚ) : String :=
  (if q < 0 then "-" else "") ++ toString (round3 q / 1000) ++ "." ++
    fracDigits3 (round3 q % 1000)

/-- One entry of the judgement comprehension: the tuple
`(direction, tag, od_mat[i][j], vecs[i][j], median[j])`. -/
structure Frag where
  direction : String
  tag : String
  contribution : ℚ
  observed : ℚ
  median : ℚ

/-- `sorted(..., key=lambda x: x[2], reverse=True)`: `a` may precede
`b` exactly when the contribution of `a` is at least that of `b`. -/
def fragLe (a b : Frag) : Prop := b.contribution ≤ a.contribution

instance : DecidableRel fragLe := fun a b =>
  inferInstanceAs (Decidable (b.contribution ≤ a.contribution))

instance : IsTotal Frag fragLe :=
  ⟨fun a b => le_total b.contribution a.contribution⟩

instance : IsTrans Frag fragLe :=
  ⟨fun _ _ _ h1 h2 => le_trans h2 h1⟩

/-- The unsorted comprehension over the enumerated tag list. -/
def fragList (tags : List String) (vec_i od_i medians : List ℚ) :
    List Frag :=
  tags.enum.map (fun p =>
    { direction := if medians.getD p.1 0 < vec_i.getD p.1 0 then "more" else "less",
      tag := p.2,
      contribution := od_i.getD p.1 0,
      observed := vec_i.getD p.1 0,
      median := medians.getD p.1 0 })

/-- `"%s %s:%.3lf(%.3lf/%.3lf)" % pair`. -/
def fragStr (f : Frag) : String :=
  f.direction ++ " " ++ f.tag ++ ":" ++ fmt3 f.contribution ++
    "(" ++ fmt3 f.observed ++ "/" ++ fmt3 f.median ++ ")"

/-- The header row the writer emits. -/
def reportHeader : List String :=
  ["Truth", "Fitted", "OD", "File Path",
   "Judgement: Dimentional OD Score (Likelihood Score / Median Likelihood Score)"]

/-- Row `i` of `csvWriter.writerows`. -/
def reportRow (relpath : String → String → String) (lib_dir : String)
    (label_truth labels : List ℕ) (od_scores : List ℚ)
    (paths : List String) (vecs od_mat : List (List ℚ))
    (tags : List String) (medians : List ℚ) (i : ℕ) : List String :=
  [toString (label_truth.getD i 0),
   toString (labels.getD i 0),
   fmt3 (od_scores.getD i 0),
   relpath (paths.getD i "") lib_dir,
   String.intercalate ", "
     (((fragList tags (vecs.getD i []) (od_mat.getD i []) medians).insertionSort
        fragLe).map fragStr)]

/-- The whole emitted table: header row then one row per record. -/
def report (relpath : String → String → String) (lib_dir : String)
    (label_truth labels : List ℕ) (od_scores : List ℚ)
    (paths : List String) (vecs od_mat : List (List ℚ))
    (tags : List String) (medians : List ℚ) (n : ℕ) : List (List String) :=
  reportHeader :: (List.range n).map
    (reportRow relpath lib_dir label_truth labels od_scores paths vecs od_mat
      tags medians)

theorem digitChar_mod10_isDigit (m : ℕ) :
    (Nat.digitChar (m % 10)).isDigit = true := by
  have h : m % 10 < 10 := Nat.mod_lt _ (by norm_num)
  interval_cases h : m % 10 <;> decide

theorem fracDigits3_length (n : ℕ) : (fracDigits3 n).length = 3 := rfl

theorem fmt3_shape (q : ℚ) :
    ∃ intp fracp, fmt3 q = intp ++ "." ++ fracp ∧ fracp.length = 3 ∧
      ∀ c ∈ fracp.data, c.isDigit = true := by
  refine ⟨(if q < 0 then "-" else "") ++ toString (round3 q / 1000),
    fracDigits3 (round3 q % 1000), ?_, fracDigits3_length _, ?_⟩
  · rw [fmt3]
  · intro c hc
    simp only [fracDigits3, List.mem_cons, List.not_mem_nil, or_false] at hc
    rcases hc with h | h | h <;>
      (rw [h]; exact digitChar_mod10_isDigit _)

/-- The claimed header (`…, Judgement`) is not what the writer emits:
the actual fifth column title is the long `Judgement: …` string. -/
theorem report_header_counterexample :
    (report (fun p _ => p) "" [] [] [] [] [] [] [] [] 0).getD 0 [] ≠
      ["Truth", "Fitted", "OD", "File Path", "Judgement"] := by
  decide

/-- C8 (amended): the writer emits the header
`Truth, Fitted, OD, File Path, Judgement: Dimentional OD Score
(Likelihood Score / Median Likelihood Score)` and, per record, one row
whose labels are plain integers, whose score has an integer part, a
dot and exactly 3 decimal digits, whose path is `relpath(path,
lib_dir)`, and whose judgement is the comma-join of the fragment
strings of a permutation of the per-tag fragments sorted by
contribution descending. -/
theorem report_rows_format (relpath : String → String → String)
    (lib_dir : String) (label_truth labels : List ℕ) (od_scores : List ℚ)
    (paths : List String) (vecs od_mat : List (List ℚ))
    (tags : List String) (medians : List ℚ) (n : ℕ) :
    (report relpath lib_dir label_truth labels od_scores paths vecs od_mat
        tags medians n).length = n + 1 ∧
    (report relpath lib_dir label_truth labels od_scores paths vecs od_mat
        tags medians n).getD 0 [] = reportHeader ∧
    ∀ i, i < n →
      ∃ row,
        (report relpath lib_dir label_truth labels od_scores paths vecs od_mat
          tags medians n).getD (i + 1) [] = row ∧
        row.length = 5 ∧
        row.getD 0 "" = toString (label_truth.getD i 0) ∧
        row.getD 1 "" = toString (labels.getD i 0) ∧
        (∃ intp fracp, row.getD 2 "" = intp ++ "." ++ fracp ∧
          fracp.length = 3 ∧ ∀ c ∈ fracp.data, c.isDigit = true) ∧
        row.getD 3 "" = relpath (paths.getD i "") lib_dir ∧
        ∃ frs : List Frag,
          row.getD 4 "" = String.intercalate ", " (frs.map fragStr) ∧
          frs.Perm (fragList tags (vecs.getD i []) (od_mat.getD i []) medians) ∧
          frs.Sorted fragLe := by
  refine ⟨by simp [report], rfl, ?_⟩
  intro i hi
  refine ⟨reportRow relpath lib_dir label_truth labels od_scores paths vecs
    od_mat tags medians i, ?_, rfl, rfl, rfl, ?_, rfl, ?_⟩
  · show ((List.range n).map (reportRow relpath lib_dir label_truth labels
      od_scores paths vecs od_mat tags medians)).getD i [] = _
    exact range_map_getD n _ i [] hi
  · exact fmt3_shape (od_scores.getD i 0)
  · refine ⟨(fragList tags (vecs.getD i []) (od_mat.getD i [])
      medians).insertionSort fragLe, rfl, ?_, ?_⟩
    · exact List.perm_insertionSort fragLe _
    · exact List.sorted_insertionSort fragLe _

/-- Witness for `report_rows_format` on a one-record report whose score
is the exact integer 2, rendered `"2.000"`. -/
theorem report_rows_format_witness :
    fmt3 (2 : ℚ) = "2.000" ∧
    (0 < 1 ∧
      ((report (fun p _ => p) "L" [0] [1] [2] ["L/x.mp3"] [[1]] [[5]] ["rock"]
          [0] 1).length = 1 + 1 ∧
        (report (fun p _ => p) "L" [0] [1] [2] ["L/x.mp3"] [[1]] [[5]] ["rock"]
          [0] 1).getD 0 [] = reportHeader ∧
        ∀ i, i < 1 →
          ∃ row,
            (report (fun p _ => p) "L" [0] [1] [2] ["L/x.mp3"] [[1]] [[5]]
              ["rock"] [0] 1).getD (i + 1) [] = row ∧
            row.length = 5 ∧
            row.getD 0 "" = toString (([0] : List ℕ).getD i 0) ∧
            row.getD 1 "" = toString (([1] : List ℕ).getD i 0) ∧
            (∃ intp fracp, row.getD 2 "" = intp ++ "." ++ fracp ∧
              fracp.length = 3 ∧ ∀ c ∈ fracp.data, c.isDigit = true) ∧
            row.getD 3 "" = (fun (p : String) (_ : String) => p)
              ((["L/x.mp3"] : List String).getD i "") "L" ∧
            ∃ frs : List Frag,
              row.getD 4 "" = String.intercalate ", " (frs.map fragStr) ∧
              frs.Perm (fragList ["rock"] (([[1]] : List (List ℚ)).getD i [])
                (([[5]] : List (List ℚ)).getD i []) [0]) ∧
              frs.Sorted fragLe)) := by
  constructor
  · have h1 : round3 (2 : ℚ) = 2000 := by
      rw [round3]
      have h : |(2 : ℚ)| * 1000 + 1 / 2 = 4001 / 2 := by norm_num
      rw [h]
      norm_num
      rfl
    rw [fmt3, h1]
    norm_num
    rfl
  · exact ⟨by decide,
      report_rows_format (fun p _ => p) "L" [0] [1] [2] ["L/x.mp3"] [[1]]
        [[5]] ["rock"] [0] 1⟩

/-- Witness for `batch_data_patches`: a 5-row spectrogram, frame
length 2, step 1 — four patches. -/
theorem batch_data_patches_witness :
    (1 ≤ 2 ∧ 2 ≤ ([[(0 : ℚ)], [1], [2], [3], [4]] : List (List ℚ)).length ∧
      0 < 1 ∧ 1 ≤ 2) ∧
    (∃ ps, batch_data [[(0 : ℚ)], [1], [2], [3], [4]] 2 1 = some ps ∧
      ps.length =
        (([[(0 : ℚ)], [1], [2], [3], [4]] : List (List ℚ)).length - 2) / 1 + 1 ∧
      ∀ i, i < ps.length →
        ps.getD i [] =
          (([[(0 : ℚ)], [1], [2], [3], [4]] : List (List ℚ)).drop (i * 1)).take 2 ∧
        (ps.getD i []).length = 2) :=
  ⟨⟨by decide, by decide, by decide, by decide⟩,
    batch_data_patches [[(0 : ℚ)], [1], [2], [3], [4]] 2 1
      (by decide) (by decide) (by decide) (by decide)⟩

/-- A tiny two-track library used to instantiate the assembly
theorem. -/
def lib0 : MusicData :=
  { tags := some ["rock"],
    path := ["L/A/a.mp3", "L/B/b.mp3"],
    vecs := [[1], [2]] }

def inDirs0 : List (String × List String) := [("L/A", ["a.mp3"])]

def outDirs0 : List (String × List String) := [("L/B", ["b.mp3"])]

/-- Witness for `album_od_assembly` on the tiny library. -/
theorem album_od_assembly_witness :
    (album_subdata lib0 inDirs0).vecs <+:
      (album_pickdata (album_subdata lib0 inDirs0) lib0 outDirs0).vecs ∧
    (album_subdata lib0 inDirs0).path <+:
      (album_pickdata (album_subdata lib0 inDirs0) lib0 outDirs0).path ∧
    (List.replicate (album_subdata lib0 inDirs0).vecs.length (0 : ℚ) ++
      List.replicate
        ((album_pickdata (album_subdata lib0 inDirs0) lib0 outDirs0).vecs.length -
          (album_subdata lib0 inDirs0).vecs.length) (1 : ℚ)).length =
      (album_pickdata (album_subdata lib0 inDirs0) lib0 outDirs0).vecs.length ∧
    ∀ i, i < (album_pickdata (album_subdata lib0 inDirs0) lib0 outDirs0).vecs.length →
      (List.replicate (album_subdata lib0 inDirs0).vecs.length (0 : ℚ) ++
        List.replicate
          ((album_pickdata (album_subdata lib0 inDirs0) lib0 outDirs0).vecs.length -
            (album_subdata lib0 inDirs0).vecs.length) (1 : ℚ)).getD i 0 =
        if i < (album_subdata lib0 inDirs0).vecs.length then 0 else 1 :=
  album_od_assembly lib0 inDirs0 outDirs0

end Musicod
